import Mathlib

/-!
A shallow embedding of `ranger/core/runner.py` from the ranger console file
manager: the `Context.squash_flags` algorithm and the `Runner.__call__`
process-launch interpreter, together with theorems about flag squashing,
flag interpretation, UI coordination, resource handling and the
return-value contract.

The embedding follows the Python source line by line.  Python strings of
flags are `List Char`; the ambient process environment (the `SHELL`
variable, the set of available executables, the display markers consulted
by the `t` flag, and whether the spawn primitives succeed) is an explicit
`Env` record; the `Runner`'s construction-time collaborators (UI, log
sink, file manager) are a `RunnerCfg` record; the runner's mutable
bookkeeping (zombie set, emitted log lines, open file handles, trace of
externally visible actions) is an `RState` record threaded through the
interpreter.  Exceptions that can escape `Runner.__call__` are modelled
with `Except`.
-/

namespace RangerRunner

/- ## Flag squashing (`Context.squash_flags`)

Python source:
```
def squash_flags(self):
    for flag in self.flags:
        if ord(flag) <= 90:
            bad = flag + flag.lower()
            self.flags = ''.join(c for c in self.flags if c not in bad)
```
The `for` loop iterates over the string `self.flags` held at loop entry,
while the assignments replace `self.flags`; so the loop is a fold over the
original character list whose accumulator starts as that same list. -/

/-- One iteration of the `squash_flags` loop body: if the current flag has
code point at most 90, remove it and its lowercase counterpart from the
accumulated flag string. -/
def squashStep (acc : List Char) (flag : Char) : List Char :=
  if flag.toNat ≤ 90 then acc.filter (fun c => !(c == flag || c == flag.toLower)) else acc

/-- `Context.squash_flags`, as a function from the flag string to the flag
string it leaves in `self.flags`. -/
def squash_flags (flags : List Char) : List Char :=
  flags.foldl squashStep flags

theorem mem_squashStep {d c : Char} {acc : List Char}
    (h : d ∈ squashStep acc c) :
    d ∈ acc ∧ (c.toNat ≤ 90 → d ≠ c ∧ d ≠ c.toLower) := by
  by_cases hc : c.toNat ≤ 90
  · rw [squashStep, if_pos hc] at h
    rcases List.mem_filter.mp h with ⟨hmem, hcond⟩
    have hcond' : ¬(d = c ∨ d = c.toLower) := by
      intro hor
      rcases hor with h1 | h1 <;> simp [h1] at hcond
    exact ⟨hmem, fun _ => ⟨fun h1 => hcond' (Or.inl h1), fun h1 => hcond' (Or.inr h1)⟩⟩
  · rw [squashStep, if_neg hc] at h
    exact ⟨h, fun hle => absurd hle hc⟩

theorem mem_foldl_squashStep :
    ∀ (l acc : List Char) (d : Char), d ∈ l.foldl squashStep acc →
      d ∈ acc ∧ ∀ c ∈ l, c.toNat ≤ 90 → d ≠ c ∧ d ≠ c.toLower := by
  intro l
  induction l with
  | nil => exact fun acc d h => ⟨h, by simp⟩
  | cons c rest ih =>
      intro acc d h
      rw [List.foldl_cons] at h
      rcases ih _ d h with ⟨hmem, hrest⟩
      rcases mem_squashStep hmem with ⟨hacc, hc⟩
      refine ⟨hacc, ?_⟩
      intro c' hc' hle
      rcases List.mem_cons.mp hc' with rfl | hmem'
      · exact hc hle
      · exact hrest c' hmem' hle

theorem mem_squash_flags {d : Char} {fl : List Char} (h : d ∈ squash_flags fl) :
    d ∈ fl ∧ ∀ c ∈ fl, c.toNat ≤ 90 → d ≠ c ∧ d ≠ c.toLower :=
  mem_foldl_squashStep fl fl d h

theorem squash_flags_gt90 {d : Char} {fl : List Char} (h : d ∈ squash_flags fl) :
    90 < d.toNat := by
  rcases mem_squash_flags h with ⟨hmem, hall⟩
  by_contra hle
  push_neg at hle
  exact (hall d hmem hle).1 rfl

theorem foldl_squashStep_of_gt90 :
    ∀ (l acc : List Char), (∀ c ∈ l, 90 < c.toNat) → l.foldl squashStep acc = acc := by
  intro l
  induction l with
  | nil => exact fun acc _ => rfl
  | cons c rest ih =>
      intro acc hall
      rw [List.foldl_cons, squashStep, if_neg (not_le.mpr (hall c (by simp)))]
      exact ih acc (fun c' hc' => hall c' (by simp [hc']))

/-- C6: flag squashing is idempotent: squashing an already-squashed flag
sequence is a no-op, for every flag sequence. -/
theorem C6_squash_idempotent (x : List Char) :
    squash_flags (squash_flags x) = squash_flags x := by
  conv_lhs => rw [squash_flags]
  exact foldl_squashStep_of_gt90 _ _ (fun c hc => squash_flags_gt90 hc)

/-- C7: if a flag sequence contains an uppercase flag `u` together with its
lowercase counterpart, then neither of the two characters appears in the
squashed result (all occurrences, duplicates included, are removed). -/
theorem C7_negation_pair_removed (x : List Char) (u : Char)
    (hu : u ∈ x) (hl : u.toLower ∈ x) (h65 : 65 ≤ u.toNat) (h90 : u.toNat ≤ 90) :
    u ∉ squash_flags x ∧ u.toLower ∉ squash_flags x := by
  constructor
  · intro hmem
    exact ((mem_squash_flags hmem).2 u hu h90).1 rfl
  · intro hmem
    exact ((mem_squash_flags hmem).2 u hu h90).2 rfl

/-- C7 witness: the concrete flag sequence "fF" squashes to a result that
contains neither 'F' nor 'f'. -/
theorem C7_negation_pair_removed_witness :
    'F' ∉ squash_flags ['f', 'F'] ∧ Char.toLower 'F' ∉ squash_flags ['f', 'F'] :=
  C7_negation_pair_removed ['f', 'F'] 'F' (by decide) (by decide) (by decide) (by decide)

/-- C9: squashing removes every character whose code point is at most 90 —
each such character removes all occurrences of itself and of its lowercase
counterpart — so the squashed result only contains characters with code
point greater than 90. -/
theorem C9_squash_removes_code_le_90 (x : List Char) :
    (∀ d ∈ squash_flags x, 90 < d.toNat) ∧
    (∀ c ∈ x, c.toNat ≤ 90 → c ∉ squash_flags x ∧ c.toLower ∉ squash_flags x) := by
  constructor
  · exact fun d hd => squash_flags_gt90 hd
  · intro c hc hle
    constructor
    · intro hmem; exact ((mem_squash_flags hmem).2 c hc hle).1 rfl
    · intro hmem; exact ((mem_squash_flags hmem).2 c hc hle).2 rfl

/-- C9 witness: on the concrete input "A5z", the surviving character 'z'
has code point above 90, and the digit '5' (code point 53) is removed even
though it is not an uppercase letter. -/
theorem C9_squash_removes_code_le_90_witness :
    90 < Char.toNat 'z' ∧ '5' ∉ squash_flags ['A', '5', 'z'] :=
  ⟨(C9_squash_removes_code_le_90 ['A', '5', 'z']).1 'z' (by decide),
   ((C9_squash_removes_code_le_90 ['A', '5', 'z']).2 '5' (by decide) (by decide)).1⟩

/- ## Data model for `Runner.__call__`

The interpreter's inputs beyond the call arguments are:
 * the ambient process environment (`Env`): the `SHELL` variable
   (`os.environ['SHELL']`, whose absence makes the lookup raise `KeyError`),
   the available executables (`ranger.ext.get_executables.get_executables()`),
   the terminal emulator name (`get_term()`), whether a display marker is
   present (`WAYLAND_DISPLAY`/`DISPLAY`/darwin), and whether the two spawn
   primitives (`subprocess.Popen`, `Popen_forked`) succeed;
 * the runner's construction-time collaborators (`RunnerCfg`): whether a UI
   object, a log callback and an fm (file manager) object are attached, and
   whether the UI's `suspend()`/`initialize()` calls succeed.

The runner's observable behaviour is recorded in `RState`: the zombie list,
the lines handed to the log sink, the currently open file handles (the
null-device handles opened under the `s` flag), fresh-handle and fresh-pid
counters, and an ordered trace of externally visible events (UI suspension
and re-initialization, the `runner.execute.before`/`after` signals, the two
spawn primitives, `process.wait()`, and the enter-press prompt). -/

/-- A Python exception that can escape `Runner.__call__`: the `KeyError`
from `os.environ['SHELL']`, or the `AttributeError` from calling
`signal_emit` on an absent fm object. -/
inductive PyExc
  | keyError
  | attributeError
  deriving DecidableEq, Repr

/-- The `action` argument: either a shell command string or an argument
list, mirroring `isinstance(action, str)` versus a list. -/
inductive PyAction
  | str (s : String)
  | args (l : List String)
  deriving DecidableEq, Repr

/-- Whether the action is a string (Python `isinstance(action, str)`). -/
def PyAction.isStr : PyAction → Bool
  | .str _ => true
  | .args _ => false

/-- A value bound to the `stdin`/`stdout`/`stderr` spawn options. -/
inductive StreamVal
  | sysStdout
  | sysStderr
  | pipeMarker
  | stdoutMarker
  | handle (h : Nat)
  | childStdout (pid : Nat)
  deriving DecidableEq, Repr

/-- The keyword options passed to the spawn primitives (`popen_kws`),
restricted to the keys the interpreter reads or writes; any other
caller-supplied keys pass through `Runner.__call__` untouched. -/
structure PopenKws where
  shell : Option Bool
  executable : Option String
  stdout : Option StreamVal
  stderr : Option StreamVal
  stdin : Option StreamVal
  args : Option PyAction
  deriving DecidableEq, Repr

/-- The empty `popen_kws` mapping (no caller-supplied overrides). -/
def kwsEmpty : PopenKws :=
  { shell := none, executable := none, stdout := none, stderr := none,
    stdin := none, args := none }

/-- An externally visible step taken by `Runner.__call__`. -/
inductive Event
  | uiSuspend
  | uiInit
  | sigBefore (kws : PopenKws)
  | sigAfter (kws : PopenKws) (err : Bool)
  | popenCall (kws : PopenKws)
  | forkedCall (kws : PopenKws)
  | procWait (pid : Nat)
  | enterPrompt
  deriving DecidableEq, Repr

/-- The runner's mutable bookkeeping plus the event trace. -/
structure RState where
  zombies : List Nat
  log : List String
  openHandles : List Nat
  nextHandle : Nat
  nextPid : Nat
  events : List Event
  deriving DecidableEq, Repr

/-- A fresh runner state: empty zombie set, empty log, no open handles. -/
def st0 : RState :=
  { zombies := [], log := [], openHandles := [], nextHandle := 0,
    nextPid := 0, events := [] }

/-- Append an event to the trace. -/
def RState.emit (st : RState) (e : Event) : RState :=
  { st with events := st.events ++ [e] }

/-- The construction-time collaborators of a `Runner` object. -/
structure RunnerCfg where
  hasUI : Bool
  hasLogfunc : Bool
  hasFM : Bool
  uiSuspendOk : Bool
  uiInitOk : Bool
  deriving DecidableEq, Repr

/-- The ambient process environment. -/
structure Env where
  shellVar : Option String
  executables : List String
  term : String
  hasDisplay : Bool
  popenOk : Bool
  forkedOk : Bool
  deriving DecidableEq, Repr

/-- The log text of the `action is None` precondition failure. -/
def noActionMsg : String := "No way of determining the action!"

/-- The log text of the `r`-flag precondition failure. -/
def sudoMissingMsg : String := "Can not run with 'r' flag, sudo is not installed!"

/-- The log text of the `t`-flag precondition failure. -/
def noDisplayMsg : String := "Can not run with 't' flag, no display found!"

/-- `Runner._log`: hands the text to `self.logfunc` (the `TypeError` raised
when no log callback is attached is caught and ignored) and returns the
`False` sentinel, which its callers return directly. -/
def runnerLog (cfg : RunnerCfg) (st : RState) (text : String) : RState :=
  if cfg.hasLogfunc then { st with log := st.log ++ [text] } else st

/-- `Runner._activate_ui`: a no-op without a UI; otherwise suspends
(`value = false`) or re-initializes (`value = true`) the UI, downgrading
any exception from the UI call to a logged message. -/
def activate_ui (cfg : RunnerCfg) (st : RState) (value : Bool) : RState :=
  if cfg.hasUI then
    if value then
      if cfg.uiInitOk then st.emit .uiInit
      else runnerLog cfg st "Failed to initialize UI"
    else
      if cfg.uiSuspendOk then st.emit .uiSuspend
      else runnerLog cfg st "Failed to suspend UI"
  else st

/- ## Flag interpretation (`Runner.__call__`, lines 157-220) -/

/-- The shell-mode defaulting step (lines 165-170): if the caller did not
supply `shell`, default it to `isinstance(action, str)`; when the resulting
value is truthy, bind `executable` to `os.environ['SHELL']` — a lookup
that raises `KeyError` when the variable is unset. -/
def interpShell (env : Env) (action0 : PyAction) (kws0 : PopenKws) :
    Except PyExc PopenKws :=
  let kws1 := if kws0.shell = none then { kws0 with shell := some action0.isStr } else kws0
  if kws1.shell = some true then
    match env.shellVar with
    | some sh => .ok { kws1 with executable := some sh }
    | none => .error .keyError
  else .ok kws1

/-- The outcome of flag interpretation: either the early `False` return of
the `r`/`t` preconditions, or the data flowing into the execution phase. -/
structure GoOut where
  kws : PopenKws
  action2 : PyAction
  toggleUi : Bool
  pipeOutput : Bool
  waitForEnter : Bool
  ctxWait : Bool
  deriving DecidableEq, Repr

inductive InterpOut
  | earlyFalse
  | go (out : GoOut)
  deriving DecidableEq, Repr

/-- The `t`-flag clause (lines 209-218) plus the final
`popen_kws['args'] = action` assignment (line 220), applied after the `r`
clause has possibly rewritten the action. -/
def interpAfterR (env : Env) (cfg : RunnerCfg) (st : RState) (action1 : PyAction)
    (flagsSq : List Char) (kws : PopenKws) (toggleUi ctxWait pipeOutput waitForEnter : Bool) :
    InterpOut × RState :=
  if 't' ∈ flagsSq then
    if !env.hasDisplay then
      (.earlyFalse, runnerLog cfg st noDisplayMsg)
    else
      let action2 : PyAction :=
        match action1 with
        | .str s => .str (env.term ++ " -e " ++ s)
        | .args l => .args (env.term :: "-e" :: l)
      (.go { kws := { kws with args := some action2 }, action2 := action2,
             toggleUi := false, pipeOutput := pipeOutput,
             waitForEnter := waitForEnter, ctxWait := false }, st)
  else
    (.go { kws := { kws with args := some action1 }, action2 := action1,
           toggleUi := toggleUi, pipeOutput := pipeOutput,
           waitForEnter := waitForEnter, ctxWait := ctxWait }, st)

/-- The flag-evaluation sequence of `Runner.__call__` (lines 172-220) after
shell defaulting: stdout/stderr defaulting, then the `p`, `s`, `f`, `w`,
`r`, `t` clauses in source order, each updating the spawn options, the
UI-toggle decision, the pipe marker, the enter-press marker and the wait
intent exactly as the source does. -/
def interpRest (env : Env) (cfg : RunnerCfg) (st : RState) (action0 : PyAction)
    (flagsSq : List Char) (wait : Bool) (kws2 : PopenKws) : InterpOut × RState :=
  -- lines 172-175: default stdout/stderr to the embedding process streams
  let kws4 := { kws2 with
    stdout := if kws2.stdout = none then some StreamVal.sysStdout else kws2.stdout,
    stderr := if kws2.stderr = none then some StreamVal.sysStderr else kws2.stderr }
  -- 'p': redirect output to the pager
  let kws5 := if 'p' ∈ flagsSq then
      { kws4 with stdout := some .pipeMarker, stderr := some .stdoutMarker } else kws4
  let toggleUi1 := if 'p' ∈ flagsSq then false else true
  let pipeOutput := decide ('p' ∈ flagsSq)
  let wait1 := if 'p' ∈ flagsSq then false else wait
  -- 's': silent mode; open the two null-device handles
  let kws6 := if 's' ∈ flagsSq then
      { kws5 with stdout := some (.handle st.nextHandle), stderr := some (.handle st.nextHandle), stdin := some (.handle (st.nextHandle + 1)) } else kws5
  let toggleUi2 := if 's' ∈ flagsSq then false else toggleUi1
  let st6 := if 's' ∈ flagsSq then
      { st with nextHandle := st.nextHandle + 2, openHandles := st.openHandles ++ [st.nextHandle, st.nextHandle + 1] } else st
  -- 'f': fork the process
  let toggleUi3 := if 'f' ∈ flagsSq then false else toggleUi2
  let wait3 := if 'f' ∈ flagsSq then false else wait1
  -- 'w': wait for enter-press afterward (sanity check against 'p')
  let waitForEnter := if 'w' ∈ flagsSq then !pipeOutput && wait3 else false
  -- 'r': run with root privilege; 't': run in a new terminal window
  if 'r' ∈ flagsSq then
    if "sudo" ∉ env.executables then
      (.earlyFalse, runnerLog cfg st6 sudoMissingMsg)
    else
      let action1 : PyAction :=
        match action0 with
        | .str s => .str ("sudo " ++ (if 'f' ∈ flagsSq then "-b " else "") ++ s)
        | .args l => .args ("sudo" :: ((if 'f' ∈ flagsSq then ["-b"] else []) ++ l))
      interpAfterR env cfg st6 action1 flagsSq kws6 true true pipeOutput waitForEnter
  else interpAfterR env cfg st6 action0 flagsSq kws6 toggleUi3 wait3 pipeOutput waitForEnter

/-- Lines 157-220 of `Runner.__call__`: shell defaulting (which can raise
`KeyError`) followed by the pure flag-evaluation sequence. -/
def interpretFlags (env : Env) (cfg : RunnerCfg) (st : RState) (action0 : PyAction)
    (flagsSq : List Char) (wait : Bool) (kws0 : PopenKws) :
    Except PyExc (InterpOut × RState) :=
  match interpShell env action0 kws0 with
  | .error e => .error e
  | .ok kws2 => .ok (interpRest env cfg st action0 flagsSq wait kws2)

/- ## Execution phase (`Runner.__call__`, lines 222-255)

The body from line 229 on is a `try`/`finally` whose `finally` block ends
in `return` statements; a `return` inside `finally` discards any in-flight
exception (the source carries a `pylint: disable=lost-exception` marker
acknowledging this).  Consequently an exception raised inside the `try`
body — for example the `AttributeError` from `process.wait()` when
`process` is `None` — does not escape; it only skips the remainder of the
`else` clause before the `finally` block runs.  Exceptions raised inside
the `finally` block itself (the `after` signal on an absent fm object, or
a `KeyError` inside the chained pager invocation) do escape. -/

/-- Result of `Runner.__call__`: the `False` sentinel, `None`, or a
process handle. -/
inductive RunResult
  | retFalse
  | retNone
  | proc (pid : Nat)
  deriving DecidableEq, Repr

abbrev CallRes := Except PyExc (RunResult × RState)

instance instDecEqExcept {ε α : Type} [DecidableEq ε] [DecidableEq α] :
    DecidableEq (Except ε α) := fun a b =>
  match a, b with
  | .error e, .error f =>
      if h : e = f then isTrue (by rw [h]) else isFalse (fun hc => h (by injection hc))
  | .ok x, .ok y =>
      if h : x = y then isTrue (by rw [h]) else isFalse (fun hc => h (by injection hc))
  | .error _, .ok _ => isFalse (fun hc => by injection hc)
  | .ok _, .error _ => isFalse (fun hc => by injection hc)

/-- The signature of the recursive pager invocation
(`self(action='less', app='pager', try_app_first=True, stdin=...)`):
action, try_app_first, app, files, mode, flags, wait, popen_kws, and the
runner state at the moment of the call. -/
abbrev ChainFn :=
  Option PyAction → Bool → String → List String → Int → List Char → Bool →
    PopenKws → RState → CallRes

/-- The text of the spawn-failure log line
(`f"Failed to run: {action}\n{ex}"`), with the formatted action and the
OSError text abstracted to a fixed rendering. -/
def spawnFailMsg (a : PyAction) : String :=
  "Failed to run: " ++ (match a with
    | .str s => s
    | .args l => "[" ++ String.intercalate ", " l ++ "]") ++ "\nOSError"

/-- The `else` clause of the inner `try` (lines 241-248), run when the
spawn raised no `OSError`: wait on the child when the request intends to
wait (`process.wait()` raises on `None`, which the `finally` `return`
swallows, skipping the rest of the clause), otherwise register a produced
child in the zombie set; then the enter-press prompt. -/
def elsePhase (st : RState) (process : Option Nat) (ctxWait waitForEnter : Bool) : RState :=
  if ctxWait then
    match process with
    | some pid =>
        let stW := st.emit (.procWait pid)
        if waitForEnter then stW.emit .enterPrompt else stW
    | none => st
  else
    let stZ :=
      match process with
      | some pid => { st with zombies := st.zombies ++ [pid] }
      | none => st
    if waitForEnter then stZ.emit .enterPrompt else stZ

/-- The spawn statement (lines 231-240): `Popen_forked` when `f` is in the
squashed flags and `r` is not (its boolean result is discarded, so no
process is bound), otherwise `subprocess.Popen`, whose `OSError` sets the
captured error and logs the failed action.  Returns the captured-error
marker, the bound process, and the state. -/
def spawnStep (cfg : RunnerCfg) (env : Env) (st3 : RState) (flagsSq : List Char)
    (out : GoOut) : Bool × Option Nat × RState :=
  if 'f' ∈ flagsSq ∧ 'r' ∉ flagsSq then
    (false, none, st3.emit (.forkedCall out.kws))
  else if env.popenOk then
    (false, some st3.nextPid, { st3.emit (.popenCall out.kws) with nextPid := st3.nextPid + 1 })
  else
    (true, none, runnerLog cfg (st3.emit (.popenCall out.kws)) (spawnFailMsg out.action2))

/-- Lines 222-255 of `Runner.__call__`: UI suspension when the flag
evaluation decided it, the `before` signal (an `AttributeError` when no fm
object is attached — it is raised again by the `finally` block and
escapes), the spawn through `Popen_forked` (`f` without `r`; its boolean
result is discarded) or `subprocess.Popen` (whose `OSError` is downgraded
to a log line), the wait/zombie/enter-press step, and the `finally` block:
`after` signal, UI re-initialization, then either the chained pager
invocation (when piping is active and a child was produced) or the return
of the process value. -/
def execPhase (chain : ChainFn) (cfg : RunnerCfg) (env : Env) (st1 : RState)
    (flagsSq : List Char) (out : GoOut) : CallRes :=
  let st2 := if out.toggleUi then activate_ui cfg st1 false else st1
  if cfg.hasFM then
    let st3 := st2.emit (.sigBefore out.kws)
    let sp := spawnStep cfg env st3 flagsSq out
    let st5 := if sp.1 then sp.2.2 else elsePhase sp.2.2 sp.2.1 out.ctxWait out.waitForEnter
    let st6 := st5.emit (.sigAfter out.kws sp.1)
    let st7 := if out.toggleUi then activate_ui cfg st6 true else st6
    match sp.2.1 with
    | some pid =>
        if out.pipeOutput then
          chain (some (.str "less")) true "pager" [] 0 [] true
            { kwsEmpty with stdin := some (.childStdout pid) } st7
        else .ok (.proc pid, st7)
    | none => .ok (.retNone, st7)
  else .error .attributeError

/-- The body of `Runner.__call__`, parameterized by the function used for
the recursive pager invocation: the `action is None` precondition, flag
squashing, flag interpretation, then the execution phase.  The `files`,
`mode`, `try_app_first` and `app` arguments only populate the `Context`
object carried by the signals and do not influence control flow. -/
def runnerBody (chain : ChainFn) (cfg : RunnerCfg) (env : Env) (st : RState)
    (action? : Option PyAction) (tryAppFirst : Bool) (app : String)
    (files : List String) (mode : Int) (flags : List Char) (wait : Bool)
    (kws0 : PopenKws) : CallRes :=
  match action? with
  | none => .ok (.retFalse, runnerLog cfg st noActionMsg)
  | some action0 =>
    let flagsSq := squash_flags flags
    match interpretFlags env cfg st action0 flagsSq wait kws0 with
    | .error e => .error e
    | .ok (.earlyFalse, st1) => .ok (.retFalse, st1)
    | .ok (.go out, st1) => execPhase chain cfg env st1 flagsSq out

/-- `Runner.__call__`.  The fuel bounds the depth of pager chaining; the
chained invocation always passes an empty flag string, so its own piping
is inactive and the chain never goes deeper than one level — any fuel
value of at least one therefore reproduces the source behaviour exactly,
with the fuel-zero body standing in for the never-taken deeper chain. -/
def runnerCall : Nat → RunnerCfg → Env → RState → Option PyAction → Bool →
    String → List String → Int → List Char → Bool → PopenKws → CallRes
  | 0, cfg, env, st, a, taf, app, files, mode, fl, w, kws =>
      runnerBody (fun _ _ _ _ _ _ _ _ stc => .ok (.retNone, stc))
        cfg env st a taf app files mode fl w kws
  | n + 1, cfg, env, st, a, taf, app, files, mode, fl, w, kws =>
      runnerBody
        (fun a2 taf2 app2 files2 mode2 fl2 w2 kws2 stc =>
          runnerCall n cfg env stc a2 taf2 app2 files2 mode2 fl2 w2 kws2)
        cfg env st a taf app files mode fl w kws

/- ## Observation helpers -/

/-- The returned value, when the call returned rather than raised. -/
def resOf : CallRes → Option RunResult
  | .ok (r, _) => some r
  | .error _ => none

/-- The final runner state, when the call returned rather than raised. -/
def stOf : CallRes → Option RState
  | .ok (_, st) => some st
  | .error _ => none

/-- The event trace of the final state (empty for a raised call). -/
def evsOf : CallRes → List Event
  | .ok (_, st) => st.events
  | .error _ => []

/-- Whether an event is a blocking `subprocess.Popen` invocation. -/
def isPopenEv : Event → Bool
  | .popenCall _ => true
  | _ => false

/-- Whether an event is a detached `Popen_forked` invocation. -/
def isForkedEv : Event → Bool
  | .forkedCall _ => true
  | _ => false

/-- Whether an event is a blocking `process.wait()`. -/
def isWaitEv : Event → Bool
  | .procWait _ => true
  | _ => false

/-- Whether an event is a UI suspension. -/
def isSuspendEv : Event → Bool
  | .uiSuspend => true
  | _ => false

/- ## Characterization of the flag-evaluation sequence -/

/-- The state left by flag evaluation: the `s` flag opens the two
null-device handles; no other clause touches the runner state. -/
def interpState (fl : List Char) (st : RState) : RState :=
  if 's' ∈ fl then
    { st with nextHandle := st.nextHandle + 2, openHandles := st.openHandles ++ [st.nextHandle, st.nextHandle + 1] }
  else st

theorem interpShell_ok {env : Env} {sh : String} (a : PyAction) (kws0 : PopenKws)
    (hsh : env.shellVar = some sh) :
    ∃ kws2, interpShell env a kws0 = .ok kws2 := by
  simp only [interpShell, hsh]
  split_ifs <;> exact ⟨_, rfl⟩

theorem interpretFlags_ok (env : Env) (cfg : RunnerCfg) (st : RState)
    (action0 : PyAction) (flagsSq : List Char) (wait : Bool) (kws0 : PopenKws)
    {sh : String} (hsh : env.shellVar = some sh) :
    ∃ res, interpretFlags env cfg st action0 flagsSq wait kws0 = .ok res := by
  obtain ⟨kws2, hk⟩ := interpShell_ok action0 kws0 hsh
  exact ⟨interpRest env cfg st action0 flagsSq wait kws2, by simp only [interpretFlags, hk]⟩

theorem interpRest_earlyFalse_r (env : Env) (cfg : RunnerCfg) (st : RState)
    (action0 : PyAction) (flagsSq : List Char) (wait : Bool) (kws2 : PopenKws)
    (hrt : 'r' ∈ flagsSq)
    (hs : "sudo" ∉ env.executables) :
    interpRest env cfg st action0 flagsSq wait kws2 =
      (.earlyFalse, runnerLog cfg (interpState flagsSq st) sudoMissingMsg) := by
  simp only [interpRest, interpState, hrt, hs, if_true, not_false_eq_true]

theorem interpRest_earlyFalse_t (env : Env) (cfg : RunnerCfg) (st : RState)
    (action0 : PyAction) (flagsSq : List Char) (wait : Bool) (kws2 : PopenKws)
    (hr : 'r' ∈ flagsSq → "sudo" ∈ env.executables)
    (htt : 't' ∈ flagsSq)
    (hd : env.hasDisplay = false) :
    interpRest env cfg st action0 flagsSq wait kws2 =
      (.earlyFalse, runnerLog cfg (interpState flagsSq st) noDisplayMsg) := by
  by_cases hrt : 'r' ∈ flagsSq
  · simp only [interpRest, interpAfterR, interpState, hrt, htt, hd, hr hrt, if_true,
      not_true_eq_false, if_false, Bool.not_false, ite_true]
  · simp only [interpRest, interpAfterR, interpState, hrt, htt, hd, if_true, if_false,
      Bool.not_false, ite_true]

theorem interpRest_go_p_nor (env : Env) (cfg : RunnerCfg) (st : RState)
    (action0 : PyAction) (flagsSq : List Char) (wait : Bool) (kws2 : PopenKws)
    (hp : 'p' ∈ flagsSq)
    (hrn : 'r' ∉ flagsSq)
    (ht : 't' ∈ flagsSq → env.hasDisplay = true) :
    ∃ out : GoOut,
      interpRest env cfg st action0 flagsSq wait kws2 = (.go out, interpState flagsSq st) ∧
      out.toggleUi = false ∧ out.ctxWait = false ∧ out.pipeOutput = true := by
  by_cases htf : 't' ∈ flagsSq
  · simp only [interpRest, interpAfterR, interpState, hp, hrn, htf, ht htf, if_true,
      if_false, ite_self, Bool.not_true, ite_true]
    exact ⟨_, rfl, rfl, rfl, by simp [hp]⟩
  · simp only [interpRest, interpAfterR, interpState, hp, hrn, htf, if_true, if_false,
      ite_self]
    exact ⟨_, rfl, rfl, rfl, by simp [hp]⟩

theorem interpRest_go_f_nor (env : Env) (cfg : RunnerCfg) (st : RState)
    (action0 : PyAction) (flagsSq : List Char) (wait : Bool) (kws2 : PopenKws)
    (hf : 'f' ∈ flagsSq)
    (hrn : 'r' ∉ flagsSq)
    (ht : 't' ∈ flagsSq → env.hasDisplay = true) :
    ∃ out : GoOut,
      interpRest env cfg st action0 flagsSq wait kws2 = (.go out, interpState flagsSq st) ∧
      out.toggleUi = false ∧ out.ctxWait = false ∧ out.waitForEnter = false := by
  by_cases htf : 't' ∈ flagsSq
  · simp only [interpRest, interpAfterR, interpState, hf, hrn, htf, ht htf, if_true,
      if_false, ite_self, Bool.and_false, Bool.not_true, ite_true]
    exact ⟨_, rfl, rfl, rfl, rfl⟩
  · simp only [interpRest, interpAfterR, interpState, hf, hrn, htf, if_true, if_false,
      ite_self, Bool.and_false]
    exact ⟨_, rfl, rfl, rfl, rfl⟩

theorem interpRest_go_p (env : Env) (cfg : RunnerCfg) (st : RState)
    (action0 : PyAction) (flagsSq : List Char) (wait : Bool) (kws2 : PopenKws)
    (hp : 'p' ∈ flagsSq)
    (hr : 'r' ∈ flagsSq → "sudo" ∈ env.executables)
    (ht : 't' ∈ flagsSq → env.hasDisplay = true) :
    ∃ out : GoOut,
      interpRest env cfg st action0 flagsSq wait kws2 = (.go out, interpState flagsSq st) ∧
      out.pipeOutput = true := by
  by_cases hrt : 'r' ∈ flagsSq <;> by_cases htf : 't' ∈ flagsSq
  · simp only [interpRest, interpAfterR, interpState, hp, hrt, hr hrt, htf, ht htf,
      if_true, not_true_eq_false, if_false, Bool.not_true, ite_true]
    exact ⟨_, rfl, by simp [hp]⟩
  · simp only [interpRest, interpAfterR, interpState, hp, hrt, hr hrt, htf, if_true,
      not_true_eq_false, if_false, ite_true]
    exact ⟨_, rfl, by simp [hp]⟩
  · simp only [interpRest, interpAfterR, interpState, hp, hrt, htf, ht htf, if_true,
      if_false, Bool.not_true, ite_true]
    exact ⟨_, rfl, by simp [hp]⟩
  · simp only [interpRest, interpAfterR, interpState, hp, hrt, htf, if_true, if_false]
    exact ⟨_, rfl, by simp [hp]⟩

theorem interpRest_go_any (env : Env) (cfg : RunnerCfg) (st : RState)
    (action0 : PyAction) (flagsSq : List Char) (wait : Bool) (kws2 : PopenKws)
    (hr : 'r' ∈ flagsSq → "sudo" ∈ env.executables)
    (ht : 't' ∈ flagsSq → env.hasDisplay = true) :
    ∃ out : GoOut,
      interpRest env cfg st action0 flagsSq wait kws2 = (.go out, interpState flagsSq st) := by
  by_cases hrt : 'r' ∈ flagsSq <;> by_cases htf : 't' ∈ flagsSq
  · simp only [interpRest, interpAfterR, interpState, hrt, hr hrt, htf, ht htf,
      if_true, not_true_eq_false, if_false, Bool.not_true, ite_true]
    exact ⟨_, rfl⟩
  · simp only [interpRest, interpAfterR, interpState, hrt, hr hrt, htf, if_true,
      not_true_eq_false, if_false, ite_true]
    exact ⟨_, rfl⟩
  · simp only [interpRest, interpAfterR, interpState, hrt, htf, ht htf, if_true,
      if_false, Bool.not_true, ite_true]
    exact ⟨_, rfl⟩
  · simp only [interpRest, interpAfterR, interpState, hrt, htf, if_true, if_false]
    exact ⟨_, rfl⟩

set_option maxHeartbeats 1000000 in
theorem interpRest_handles (env : Env) (cfg : RunnerCfg) (st : RState)
    (action0 : PyAction) (flagsSq : List Char) (wait : Bool) (kws2 : PopenKws)
    (hs : 's' ∈ flagsSq) :
    st.nextHandle ∈ (interpRest env cfg st action0 flagsSq wait kws2).2.openHandles ∧
    st.nextHandle + 1 ∈ (interpRest env cfg st action0 flagsSq wait kws2).2.openHandles := by
  by_cases hrt : 'r' ∈ flagsSq <;> by_cases hsu : "sudo" ∈ env.executables <;>
    by_cases htf : 't' ∈ flagsSq <;> by_cases hd : env.hasDisplay = true <;>
    simp_all [interpRest, interpAfterR, runnerLog] <;> split_ifs <;> simp

/- ## State-preservation facts -/

theorem emit_zombies (st : RState) (e : Event) : (st.emit e).zombies = st.zombies := rfl

theorem emit_openHandles (st : RState) (e : Event) : (st.emit e).openHandles = st.openHandles := rfl

theorem emit_events (st : RState) (e : Event) : (st.emit e).events = st.events ++ [e] := rfl

theorem runnerLog_zombies (cfg : RunnerCfg) (st : RState) (text : String) :
    (runnerLog cfg st text).zombies = st.zombies := by
  unfold runnerLog; split_ifs <;> rfl

theorem runnerLog_openHandles (cfg : RunnerCfg) (st : RState) (text : String) :
    (runnerLog cfg st text).openHandles = st.openHandles := by
  unfold runnerLog; split_ifs <;> rfl

theorem runnerLog_events (cfg : RunnerCfg) (st : RState) (text : String) :
    (runnerLog cfg st text).events = st.events := by
  unfold runnerLog; split_ifs <;> rfl

theorem runnerLog_log (cfg : RunnerCfg) (st : RState) (text : String) :
    (runnerLog cfg st text).log = st.log ++ (if cfg.hasLogfunc then [text] else []) := by
  unfold runnerLog; split_ifs <;> simp

theorem activate_ui_openHandles (cfg : RunnerCfg) (st : RState) (v : Bool) :
    (activate_ui cfg st v).openHandles = st.openHandles := by
  unfold activate_ui
  split_ifs <;> simp [emit_openHandles, runnerLog_openHandles]

theorem elsePhase_openHandles (st : RState) (process : Option Nat) (cw we : Bool) :
    (elsePhase st process cw we).openHandles = st.openHandles := by
  cases process <;> unfold elsePhase <;> split_ifs <;> rfl

theorem interpState_zombies (fl : List Char) (st : RState) :
    (interpState fl st).zombies = st.zombies := by
  unfold interpState; split_ifs <;> rfl

theorem interpState_events (fl : List Char) (st : RState) :
    (interpState fl st).events = st.events := by
  unfold interpState; split_ifs <;> rfl

theorem interpState_log (fl : List Char) (st : RState) :
    (interpState fl st).log = st.log := by
  unfold interpState; split_ifs <;> rfl

/- ## Execution-phase facts -/

theorem execPhase_forked (chain : ChainFn) (cfg : RunnerCfg) (env : Env) (st1 : RState)
    (flagsSq : List Char) (out : GoOut)
    (hfm : cfg.hasFM = true)
    (hf : 'f' ∈ flagsSq) (hrn : 'r' ∉ flagsSq)
    (htg : out.toggleUi = false) (hcw : out.ctxWait = false) (hwe : out.waitForEnter = false) :
    execPhase chain cfg env st1 flagsSq out =
      .ok (.retNone,
        ((st1.emit (.sigBefore out.kws)).emit (.forkedCall out.kws)).emit (.sigAfter out.kws false)) := by
  simp [execPhase, spawnStep, elsePhase, hfm, hf, hrn, htg, hcw, hwe]

theorem execPhase_popenFail (chain : ChainFn) (cfg : RunnerCfg) (env : Env) (st1 : RState)
    (flagsSq : List Char) (out : GoOut)
    (hfm : cfg.hasFM = true)
    (hnf : ¬('f' ∈ flagsSq ∧ 'r' ∉ flagsSq))
    (hpo : env.popenOk = false) :
    resOf (execPhase chain cfg env st1 flagsSq out) = some .retNone := by
  simp [execPhase, spawnStep, resOf, hfm, hnf, hpo]

theorem execPhase_pipe (chain : ChainFn) (cfg : RunnerCfg) (env : Env) (st1 : RState)
    (flagsSq : List Char) (out : GoOut)
    (hfm : cfg.hasFM = true)
    (hnf : ¬('f' ∈ flagsSq ∧ 'r' ∉ flagsSq))
    (hpo : env.popenOk = true)
    (hpipe : out.pipeOutput = true) :
    ∃ pid st7, execPhase chain cfg env st1 flagsSq out =
      chain (some (.str "less")) true "pager" [] 0 [] true
        { kwsEmpty with stdin := some (.childStdout pid) } st7 := by
  simp only [execPhase, spawnStep, hfm, hnf, hpo, hpipe, if_true, if_false, ite_true, ite_false]
  exact ⟨_, _, rfl⟩

theorem execPhase_total (chain : ChainFn) (cfg : RunnerCfg) (env : Env) (st1 : RState)
    (flagsSq : List Char) (out : GoOut)
    (hfm : cfg.hasFM = true)
    (hchain : ∀ a2 taf2 app2 files2 mode2 fl2 w2 kws2 stc,
      ∃ res, chain a2 taf2 app2 files2 mode2 fl2 w2 kws2 stc = .ok res) :
    ∃ res, execPhase chain cfg env st1 flagsSq out = .ok res := by
  by_cases hnf : ('f' ∈ flagsSq ∧ 'r' ∉ flagsSq)
  · simp [execPhase, spawnStep, hfm, hnf]
  · cases hpo : env.popenOk
    · simp [execPhase, spawnStep, hfm, hnf, hpo]
    · by_cases hpipe : out.pipeOutput = true
      · simp only [execPhase, spawnStep, hfm, hnf, hpo, hpipe, if_true, if_false,
          ite_true, ite_false]
        exact hchain _ _ _ _ _ _ _ _ _
      · simp [execPhase, spawnStep, hfm, hnf, hpo, hpipe]

theorem execPhase_handles (chain : ChainFn) (cfg : RunnerCfg) (env : Env) (st1 : RState)
    (flagsSq : List Char) (out : GoOut)
    (hchain : ∀ a2 taf2 app2 files2 mode2 fl2 w2 kws2 stc res st2,
      chain a2 taf2 app2 files2 mode2 fl2 w2 kws2 stc = .ok (res, st2) →
      stc.openHandles ⊆ st2.openHandles) :
    ∀ res st2, execPhase chain cfg env st1 flagsSq out = .ok (res, st2) →
      st1.openHandles ⊆ st2.openHandles := by
  intro res st2 h
  by_cases hfm : cfg.hasFM = true
  case neg =>
    simp [execPhase, hfm] at h
  case pos =>
  have hsp : ∀ sp : Bool × Option Nat × RState,
      sp = spawnStep cfg env ((if out.toggleUi then activate_ui cfg st1 false else st1).emit
        (.sigBefore out.kws)) flagsSq out → sp.2.2.openHandles = st1.openHandles := by
    intro sp hspe
    rw [hspe]
    unfold spawnStep
    split_ifs <;>
      simp [emit_openHandles, runnerLog_openHandles, activate_ui_openHandles]
  simp only [execPhase, hfm, if_true, ite_true] at h
  rcases hspv : spawnStep cfg env ((if out.toggleUi then activate_ui cfg st1 false else st1).emit
      (.sigBefore out.kws)) flagsSq out with ⟨errF, process, st4⟩
  have h4 : st4.openHandles = st1.openHandles := by
    have := hsp (errF, process, st4) hspv.symm
    simpa using this
  rw [hspv] at h
  have h7 : ∀ st7v : RState,
      st7v = (if out.toggleUi then
        activate_ui cfg ((if errF then st4 else elsePhase st4 process out.ctxWait out.waitForEnter).emit
          (.sigAfter out.kws errF)) true
      else (if errF then st4 else elsePhase st4 process out.ctxWait out.waitForEnter).emit
          (.sigAfter out.kws errF)) →
      st7v.openHandles = st1.openHandles := by
    intro st7v hv
    rw [hv]
    split_ifs <;>
      simp [activate_ui_openHandles, emit_openHandles, elsePhase_openHandles, h4]
  cases process with
  | none =>
      simp only [Except.ok.injEq, Prod.mk.injEq] at h
      obtain ⟨h1, h2⟩ := h
      rw [← h2, h7 _ rfl]
      exact List.Subset.refl _
  | some pid =>
      by_cases hpipe : out.pipeOutput = true
      · rw [hpipe] at h
        simp only [if_true, ite_true] at h
        have hsub := hchain _ _ _ _ _ _ _ _ _ res st2 h
        have := h7 _ rfl
        rw [this] at hsub
        exact hsub
      · simp only [hpipe, if_false, Bool.false_eq_true, ite_false,
          Except.ok.injEq, Prod.mk.injEq] at h
        obtain ⟨h1, h2⟩ := h
        rw [← h2, h7 _ rfl]
        exact List.Subset.refl _

/- ## Call-level facts -/

theorem runnerBody_noAction (chain : ChainFn) (cfg : RunnerCfg) (env : Env) (st : RState)
    (taf : Bool) (app : String) (files : List String) (mode : Int) (fl : List Char)
    (w : Bool) (kws : PopenKws) :
    runnerBody chain cfg env st none taf app files mode fl w kws =
      .ok (.retFalse, runnerLog cfg st noActionMsg) := rfl

theorem runnerBody_r_noSudo (chain : ChainFn) (cfg : RunnerCfg) (env : Env) (st : RState)
    (a : PyAction) (taf : Bool) (app : String) (files : List String) (mode : Int)
    (fl : List Char) (w : Bool) (kws : PopenKws) {sh : String}
    (hsh : env.shellVar = some sh)
    (hrt : 'r' ∈ squash_flags fl) (hsu : "sudo" ∉ env.executables) :
    runnerBody chain cfg env st (some a) taf app files mode fl w kws =
      .ok (.retFalse, runnerLog cfg (interpState (squash_flags fl) st) sudoMissingMsg) := by
  obtain ⟨kws2, hk⟩ := interpShell_ok a kws hsh
  simp only [runnerBody, interpretFlags, hk,
    interpRest_earlyFalse_r env cfg st a (squash_flags fl) w kws2 hrt hsu]

theorem runnerBody_t_noDisplay (chain : ChainFn) (cfg : RunnerCfg) (env : Env) (st : RState)
    (a : PyAction) (taf : Bool) (app : String) (files : List String) (mode : Int)
    (fl : List Char) (w : Bool) (kws : PopenKws) {sh : String}
    (hsh : env.shellVar = some sh)
    (hr : 'r' ∈ squash_flags fl → "sudo" ∈ env.executables)
    (htt : 't' ∈ squash_flags fl) (hd : env.hasDisplay = false) :
    runnerBody chain cfg env st (some a) taf app files mode fl w kws =
      .ok (.retFalse, runnerLog cfg (interpState (squash_flags fl) st) noDisplayMsg) := by
  obtain ⟨kws2, hk⟩ := interpShell_ok a kws hsh
  simp only [runnerBody, interpretFlags, hk,
    interpRest_earlyFalse_t env cfg st a (squash_flags fl) w kws2 hr htt hd]

theorem runnerBody_forked (chain : ChainFn) (cfg : RunnerCfg) (env : Env) (st : RState)
    (a : PyAction) (taf : Bool) (app : String) (files : List String) (mode : Int)
    (fl : List Char) (w : Bool) (kws : PopenKws) {sh : String}
    (hsh : env.shellVar = some sh) (hfm : cfg.hasFM = true)
    (hf : 'f' ∈ squash_flags fl) (hrn : 'r' ∉ squash_flags fl)
    (ht : 't' ∈ squash_flags fl → env.hasDisplay = true) :
    ∃ k : PopenKws,
      runnerBody chain cfg env st (some a) taf app files mode fl w kws =
        .ok (.retNone,
          (((interpState (squash_flags fl) st).emit (.sigBefore k)).emit
            (.forkedCall k)).emit (.sigAfter k false)) := by
  obtain ⟨kws2, hk⟩ := interpShell_ok a kws hsh
  obtain ⟨out, heq, htg, hcw, hwe⟩ :=
    interpRest_go_f_nor env cfg st a (squash_flags fl) w kws2 hf hrn ht
  refine ⟨out.kws, ?_⟩
  simp only [runnerBody, interpretFlags, hk, heq,
    execPhase_forked chain cfg env _ _ out hfm hf hrn htg hcw hwe]

theorem runnerBody_popenFail (chain : ChainFn) (cfg : RunnerCfg) (env : Env) (st : RState)
    (a : PyAction) (taf : Bool) (app : String) (files : List String) (mode : Int)
    (fl : List Char) (w : Bool) (kws : PopenKws) {sh : String}
    (hsh : env.shellVar = some sh) (hfm : cfg.hasFM = true)
    (hnf : ¬('f' ∈ squash_flags fl ∧ 'r' ∉ squash_flags fl))
    (hpo : env.popenOk = false)
    (hr : 'r' ∈ squash_flags fl → "sudo" ∈ env.executables)
    (ht : 't' ∈ squash_flags fl → env.hasDisplay = true) :
    resOf (runnerBody chain cfg env st (some a) taf app files mode fl w kws) =
      some .retNone := by
  obtain ⟨kws2, hk⟩ := interpShell_ok a kws hsh
  obtain ⟨out, heq⟩ := interpRest_go_any env cfg st a (squash_flags fl) w kws2 hr ht
  simp only [runnerBody, interpretFlags, hk, heq]
  exact execPhase_popenFail chain cfg env _ _ out hfm hnf hpo

theorem runnerBody_pipe (chain : ChainFn) (cfg : RunnerCfg) (env : Env) (st : RState)
    (a : PyAction) (taf : Bool) (app : String) (files : List String) (mode : Int)
    (fl : List Char) (w : Bool) (kws : PopenKws) {sh : String}
    (hsh : env.shellVar = some sh) (hfm : cfg.hasFM = true)
    (hp : 'p' ∈ squash_flags fl)
    (hnf : ¬('f' ∈ squash_flags fl ∧ 'r' ∉ squash_flags fl))
    (hpo : env.popenOk = true)
    (hr : 'r' ∈ squash_flags fl → "sudo" ∈ env.executables)
    (ht : 't' ∈ squash_flags fl → env.hasDisplay = true) :
    ∃ pid st7,
      runnerBody chain cfg env st (some a) taf app files mode fl w kws =
        chain (some (.str "less")) true "pager" [] 0 [] true
          { kwsEmpty with stdin := some (.childStdout pid) } st7 := by
  obtain ⟨kws2, hk⟩ := interpShell_ok a kws hsh
  obtain ⟨out, heq, hpipe⟩ := interpRest_go_p env cfg st a (squash_flags fl) w kws2 hp hr ht
  obtain ⟨pid, st7, hexec⟩ :=
    execPhase_pipe chain cfg env (interpState (squash_flags fl) st) (squash_flags fl) out
      hfm hnf hpo hpipe
  refine ⟨pid, st7, ?_⟩
  simp only [runnerBody, interpretFlags, hk, heq, hexec]

theorem runnerBody_total (chain : ChainFn) (cfg : RunnerCfg) (env : Env) (st : RState)
    (action? : Option PyAction) (taf : Bool) (app : String) (files : List String)
    (mode : Int) (fl : List Char) (w : Bool) (kws : PopenKws) {sh : String}
    (hsh : env.shellVar = some sh) (hfm : cfg.hasFM = true)
    (hchain : ∀ a2 taf2 app2 files2 mode2 fl2 w2 kws2 stc,
      ∃ res, chain a2 taf2 app2 files2 mode2 fl2 w2 kws2 stc = .ok res) :
    ∃ res, runnerBody chain cfg env st action? taf app files mode fl w kws = .ok res := by
  cases action? with
  | none => exact ⟨_, rfl⟩
  | some a =>
      obtain ⟨kws2, hk⟩ := interpShell_ok a kws hsh
      rcases hres : interpRest env cfg st a (squash_flags fl) w kws2 with ⟨io, st1⟩
      cases io with
      | earlyFalse =>
          exact ⟨(.retFalse, st1), by simp only [runnerBody, interpretFlags, hk, hres]⟩
      | go out =>
          obtain ⟨res, hexec⟩ := execPhase_total chain cfg env st1 (squash_flags fl) out hfm hchain
          exact ⟨res, by simp only [runnerBody, interpretFlags, hk, hres, hexec]⟩

theorem runnerCall_total (n : Nat) (cfg : RunnerCfg) (env : Env) (st : RState)
    (action? : Option PyAction) (taf : Bool) (app : String) (files : List String)
    (mode : Int) (fl : List Char) (w : Bool) (kws : PopenKws) {sh : String}
    (hsh : env.shellVar = some sh) (hfm : cfg.hasFM = true) :
    ∃ res, runnerCall n cfg env st action? taf app files mode fl w kws = .ok res := by
  induction n generalizing st action? taf app files mode fl w kws with
  | zero =>
      exact runnerBody_total _ cfg env st action? taf app files mode fl w kws hsh hfm
        (fun a2 taf2 app2 files2 mode2 fl2 w2 kws2 stc => ⟨(.retNone, stc), rfl⟩)
  | succ m ih =>
      exact runnerBody_total _ cfg env st action? taf app files mode fl w kws hsh hfm
        (fun a2 taf2 app2 files2 mode2 fl2 w2 kws2 stc =>
          ih stc a2 taf2 app2 files2 mode2 fl2 w2 kws2)

theorem interpRest_handles_mono (env : Env) (cfg : RunnerCfg) (st : RState)
    (action0 : PyAction) (flagsSq : List Char) (wait : Bool) (kws2 : PopenKws) :
    st.openHandles ⊆ (interpRest env cfg st action0 flagsSq wait kws2).2.openHandles := by
  by_cases hrt : 'r' ∈ flagsSq <;> by_cases hsu : "sudo" ∈ env.executables <;>
    by_cases htf : 't' ∈ flagsSq <;> by_cases hd : env.hasDisplay = true <;>
    simp_all [interpRest, interpAfterR, runnerLog] <;> split_ifs <;> simp

theorem runnerBody_handles (chain : ChainFn) (cfg : RunnerCfg) (env : Env) (st : RState)
    (action? : Option PyAction) (taf : Bool) (app : String) (files : List String)
    (mode : Int) (fl : List Char) (w : Bool) (kws : PopenKws)
    (hchain : ∀ a2 taf2 app2 files2 mode2 fl2 w2 kws2 stc res st2,
      chain a2 taf2 app2 files2 mode2 fl2 w2 kws2 stc = .ok (res, st2) →
      stc.openHandles ⊆ st2.openHandles) :
    ∀ res st2, runnerBody chain cfg env st action? taf app files mode fl w kws = .ok (res, st2) →
      st.openHandles ⊆ st2.openHandles := by
  intro res st2 h
  cases action? with
  | none =>
      rw [runnerBody_noAction] at h
      simp only [Except.ok.injEq, Prod.mk.injEq] at h
      rw [← h.2, runnerLog_openHandles]
      exact List.Subset.refl _
  | some a =>
      cases hks : interpShell env a kws with
      | error e => simp [runnerBody, interpretFlags, hks] at h
      | ok kws2 =>
          have hsub1 : st.openHandles ⊆
              (interpRest env cfg st a (squash_flags fl) w kws2).2.openHandles :=
            interpRest_handles_mono env cfg st a (squash_flags fl) w kws2
          rcases hres : interpRest env cfg st a (squash_flags fl) w kws2 with ⟨io, st1⟩
          rw [hres] at hsub1
          cases io with
          | earlyFalse =>
              simp only [runnerBody, interpretFlags, hks, hres, Except.ok.injEq,
                Prod.mk.injEq] at h
              rw [← h.2]
              exact hsub1
          | go out =>
              simp only [runnerBody, interpretFlags, hks, hres] at h
              exact List.Subset.trans hsub1
                (execPhase_handles chain cfg env st1 (squash_flags fl) out hchain res st2 h)

theorem runnerCall_handles_mono (n : Nat) (cfg : RunnerCfg) (env : Env) :
    ∀ (st : RState) (action? : Option PyAction) (taf : Bool) (app : String)
      (files : List String) (mode : Int) (fl : List Char) (w : Bool) (kws : PopenKws)
      (res : RunResult) (st2 : RState),
      runnerCall n cfg env st action? taf app files mode fl w kws = .ok (res, st2) →
      st.openHandles ⊆ st2.openHandles := by
  induction n with
  | zero =>
      intro st action? taf app files mode fl w kws res st2 h
      refine runnerBody_handles _ cfg env st action? taf app files mode fl w kws ?_ res st2 h
      intro a2 taf2 app2 files2 mode2 fl2 w2 kws2 stc res2 stc2 hc
      simp only [Except.ok.injEq, Prod.mk.injEq] at hc
      rw [← hc.2]
      exact List.Subset.refl _
  | succ m ih =>
      intro st action? taf app files mode fl w kws res st2 h
      refine runnerBody_handles _ cfg env st action? taf app files mode fl w kws ?_ res st2 h
      intro a2 taf2 app2 files2 mode2 fl2 w2 kws2 stc res2 stc2 hc
      exact ih stc a2 taf2 app2 files2 mode2 fl2 w2 kws2 res2 stc2 hc

theorem runnerCall_zero (cfg : RunnerCfg) (env : Env) (st : RState) (a : Option PyAction)
    (taf : Bool) (app : String) (files : List String) (mode : Int) (fl : List Char)
    (w : Bool) (kws : PopenKws) :
    runnerCall 0 cfg env st a taf app files mode fl w kws =
      runnerBody (fun _ _ _ _ _ _ _ _ stc => .ok (.retNone, stc))
        cfg env st a taf app files mode fl w kws := rfl

theorem runnerCall_succ (m : Nat) (cfg : RunnerCfg) (env : Env) (st : RState)
    (a : Option PyAction) (taf : Bool) (app : String) (files : List String) (mode : Int)
    (fl : List Char) (w : Bool) (kws : PopenKws) :
    runnerCall (m + 1) cfg env st a taf app files mode fl w kws =
      runnerBody (fun a2 taf2 app2 files2 mode2 fl2 w2 kws2 stc =>
          runnerCall m cfg env stc a2 taf2 app2 files2 mode2 fl2 w2 kws2)
        cfg env st a taf app files mode fl w kws := rfl

/- ## Concrete fixtures for witnesses and counterexamples -/

/-- A fully attached runner: UI, log sink and fm object present, with the
UI suspend and initialize calls succeeding. -/
def cfgStd : RunnerCfg :=
  { hasUI := true, hasLogfunc := true, hasFM := true, uiSuspendOk := true, uiInitOk := true }

/-- A benign environment: `SHELL` set, `sudo` available, a terminal
emulator resolved, a display present, both spawn primitives succeeding. -/
def envStd : Env :=
  { shellVar := some "/bin/sh", executables := ["sudo"], term := "xterm",
    hasDisplay := true, popenOk := true, forkedOk := true }

/-- The flag-interpretation output of a `p`-flag call on action "x" with no
caller overrides, used by the C2 witness. -/
def outP : GoOut :=
  { kws := { shell := some true, executable := some "/bin/sh",
             stdout := some .pipeMarker, stderr := some .stdoutMarker,
             stdin := none, args := some (.str "x") },
    action2 := .str "x", toggleUi := false, pipeOutput := true,
    waitForEnter := false, ctxWait := false }

/- ## Claim C1 -/

/-- C1 counterexample: with `SHELL` absent from the environment and a
string action (shell mode), `Runner.__call__` raises `KeyError` from the
`os.environ['SHELL']` lookup on line 170 instead of downgrading the
failure to a logged message plus a sentinel return value, refuting the
claim that no exception escapes for every input. -/
theorem C1_exception_escapes_cex :
    runnerCall 1 cfgStd { envStd with shellVar := none } st0
      (some (.str "ls")) false "default" [] 0 [] true kwsEmpty = .error .keyError := by
  decide

/-- C1 (amended): provided the environment defines `SHELL` (which the spec
itself requires whenever shell-mode spawning is used) and the runner's fm
object is attached (required for the notification signals), the execute
operation never lets an exception escape: it returns a value for every
action, flags, files, mode, wait value and spawn-option overrides. -/
theorem C1_no_exception_amended (n : Nat) (cfg : RunnerCfg) (env : Env) (st : RState)
    (action? : Option PyAction) (taf : Bool) (app : String) (files : List String)
    (mode : Int) (fl : List Char) (w : Bool) (kws : PopenKws) (sh : String)
    (hsh : env.shellVar = some sh) (hfm : cfg.hasFM = true) :
    ∃ res, runnerCall n cfg env st action? taf app files mode fl w kws = .ok res :=
  runnerCall_total n cfg env st action? taf app files mode fl w kws hsh hfm

/-- C1 witness: the amended theorem applied to the docstring's own example
call, `run('sleep 2', wait=True)`, in a benign environment. -/
theorem C1_no_exception_amended_witness :
    ∃ res, runnerCall 1 cfgStd envStd st0 (some (.str "sleep 2")) false "default" [] 0 []
      true kwsEmpty = .ok res :=
  C1_no_exception_amended 1 cfgStd envStd st0 (some (.str "sleep 2")) false "default" [] 0
    [] true kwsEmpty "/bin/sh" (by decide) (by decide)

/- ## Claim C2 -/

/-- C2 counterexample: with squashed flags "pr" and the escalation tool
available, the UI is suspended during the call and the child is waited on
(the `r` clause runs after the `p` clause and overrides both decisions),
refuting the claim that `p` combined with any other flags yields a false
wait intent and no UI suspension. -/
theorem C2_p_wait_ui_cex :
    Event.uiSuspend ∈ evsOf (runnerCall 2 cfgStd envStd st0 (some (.str "cat x")) false
      "default" [] 0 ['p', 'r'] true kwsEmpty) ∧
    Event.procWait 0 ∈ evsOf (runnerCall 2 cfgStd envStd st0 (some (.str "cat x")) false
      "default" [] 0 ['p', 'r'] true kwsEmpty) := by
  decide

/-- C2 (amended): when the squashed flags contain `p` and do not contain
`r`, flag interpretation yields a false wait intent and a false UI-toggle
decision, so the invocation itself never suspends the UI before pager
chaining; when `r` is also present, the `r` clause overrides both
decisions, and the chained pager invocation makes its own UI decision. -/
theorem C2_p_wait_ui_amended (env : Env) (cfg : RunnerCfg) (st : RState) (a : PyAction)
    (fl : List Char) (w : Bool) (kws : PopenKws) (out : GoOut) (st2 : RState)
    (hp : 'p' ∈ squash_flags fl) (hrn : 'r' ∉ squash_flags fl)
    (hgo : interpretFlags env cfg st a (squash_flags fl) w kws = .ok (.go out, st2)) :
    out.ctxWait = false ∧ out.toggleUi = false := by
  cases hks : interpShell env a kws with
  | error e => simp [interpretFlags, hks] at hgo
  | ok kws2 =>
      by_cases hdt : 't' ∈ squash_flags fl ∧ env.hasDisplay = false
      · have hef := interpRest_earlyFalse_t env cfg st a (squash_flags fl) w kws2
          (fun hrt => absurd hrt hrn) hdt.1 hdt.2
        simp [interpretFlags, hks, hef] at hgo
      · have ht : 't' ∈ squash_flags fl → env.hasDisplay = true := by
          intro htt
          rcases Bool.eq_false_or_eq_true env.hasDisplay with hF | hT
          · exact hF
          · exact absurd ⟨htt, hT⟩ hdt
        obtain ⟨out2, heq, htg, hcw, _⟩ :=
          interpRest_go_p_nor env cfg st a (squash_flags fl) w kws2 hp hrn ht
        simp only [interpretFlags, hks, heq, Except.ok.injEq, Prod.mk.injEq,
          InterpOut.go.injEq] at hgo
        rw [← hgo.1]
        exact ⟨hcw, htg⟩

/-- C2 witness: the amended theorem applied to flags "p" on action "x" in
a benign environment, whose interpretation output is `outP`. -/
theorem C2_p_wait_ui_amended_witness :
    outP.ctxWait = false ∧ outP.toggleUi = false :=
  C2_p_wait_ui_amended envStd cfgStd st0 (.str "x") ['p'] true kwsEmpty outP st0
    (by decide) (by decide) (by decide)

/- ## Claim C3 -/

/-- C3 counterexample: a successful `f`-flag invocation (detached path,
spawn primitives working): the detached primitive is invoked, yet the
zombie set stays empty and the result is `None` — the child's handle is
never added to the zombie set, because `Popen_forked`'s boolean result is
discarded — refuting the claim that the child handle ends up in the
zombie set. -/
theorem C3_forked_zombies_cex :
    resOf (runnerCall 1 cfgStd envStd st0 (some (.str "mpv x")) false "default" [] 0 ['f']
      true kwsEmpty) = some .retNone ∧
    (stOf (runnerCall 1 cfgStd envStd st0 (some (.str "mpv x")) false "default" [] 0 ['f']
      true kwsEmpty)).map RState.zombies = some [] ∧
    (evsOf (runnerCall 1 cfgStd envStd st0 (some (.str "mpv x")) false "default" [] 0 ['f']
      true kwsEmpty)).any isForkedEv = true := by
  decide

/-- C3 (amended): an `f`-flag invocation without `r` (with the flag
preconditions met) never blocks the caller on the child — no
`process.wait()` occurs — and never uses the blocking spawn primitive;
the detached primitive is invoked, its handle is discarded, the zombie
set is left unchanged, and the result is `None`, whether or not the
detached primitive is available. -/
theorem C3_forked_amended (n : Nat) (cfg : RunnerCfg) (env : Env) (st : RState)
    (a : PyAction) (taf : Bool) (app : String) (files : List String) (mode : Int)
    (fl : List Char) (w : Bool) (kws : PopenKws) (sh : String)
    (hsh : env.shellVar = some sh) (hfm : cfg.hasFM = true)
    (hf : 'f' ∈ squash_flags fl) (hrn : 'r' ∉ squash_flags fl)
    (ht : 't' ∈ squash_flags fl → env.hasDisplay = true)
    (hev : st.events = []) :
    ∃ st2, runnerCall n cfg env st (some a) taf app files mode fl w kws =
        .ok (.retNone, st2) ∧
      st2.zombies = st.zombies ∧
      st2.events.any isWaitEv = false ∧
      st2.events.any isPopenEv = false ∧
      st2.events.any isForkedEv = true := by
  have key : ∀ chain : ChainFn,
      ∃ st2, runnerBody chain cfg env st (some a) taf app files mode fl w kws =
          .ok (.retNone, st2) ∧
        st2.zombies = st.zombies ∧ st2.events.any isWaitEv = false ∧
        st2.events.any isPopenEv = false ∧ st2.events.any isForkedEv = true := by
    intro chain
    obtain ⟨k, hbody⟩ :=
      runnerBody_forked chain cfg env st a taf app files mode fl w kws hsh hfm hf hrn ht
    refine ⟨_, hbody, ?_, ?_, ?_, ?_⟩
    · simp [emit_zombies, interpState_zombies]
    · simp [emit_events, interpState_events, hev, isWaitEv]
    · simp [emit_events, interpState_events, hev, isPopenEv]
    · simp [emit_events, interpState_events, hev, isForkedEv]
  cases n with
  | zero => rw [runnerCall_zero]; exact key _
  | succ m => rw [runnerCall_succ]; exact key _

/-- C3 witness: the amended theorem applied to flags "f" on a concrete
action in a benign environment with a fresh runner state. -/
theorem C3_forked_amended_witness :
    ∃ st2, runnerCall 1 cfgStd envStd st0 (some (.str "mpv y")) false "default" [] 0 ['f']
        true kwsEmpty = .ok (.retNone, st2) ∧
      st2.zombies = st0.zombies ∧
      st2.events.any isWaitEv = false ∧
      st2.events.any isPopenEv = false ∧
      st2.events.any isForkedEv = true :=
  C3_forked_amended 1 cfgStd envStd st0 (.str "mpv y") false "default" [] 0 ['f'] true
    kwsEmpty "/bin/sh" (by decide) (by decide) (by decide) (by decide) (by decide) (by decide)

/- ## Claim C4 -/

theorem runnerBody_s_handles (chain : ChainFn) (cfg : RunnerCfg) (env : Env) (st : RState)
    (a : PyAction) (taf : Bool) (app : String) (files : List String) (mode : Int)
    (fl : List Char) (w : Bool) (kws : PopenKws)
    (hchain : ∀ a2 taf2 app2 files2 mode2 fl2 w2 kws2 stc res st2,
      chain a2 taf2 app2 files2 mode2 fl2 w2 kws2 stc = .ok (res, st2) →
      stc.openHandles ⊆ st2.openHandles)
    (hsf : 's' ∈ squash_flags fl) :
    ∀ res st2, runnerBody chain cfg env st (some a) taf app files mode fl w kws =
        .ok (res, st2) →
      st.nextHandle ∈ st2.openHandles ∧ st.nextHandle + 1 ∈ st2.openHandles := by
  intro res st2 h
  cases hks : interpShell env a kws with
  | error e => simp [runnerBody, interpretFlags, hks] at h
  | ok kws2 =>
      have hh := interpRest_handles env cfg st a (squash_flags fl) w kws2 hsf
      rcases hres : interpRest env cfg st a (squash_flags fl) w kws2 with ⟨io, st1⟩
      rw [hres] at hh
      cases io with
      | earlyFalse =>
          simp only [runnerBody, interpretFlags, hks, hres, Except.ok.injEq,
            Prod.mk.injEq] at h
          rw [← h.2]
          exact hh
      | go out =>
          simp only [runnerBody, interpretFlags, hks, hres] at h
          have hmono :=
            execPhase_handles chain cfg env st1 (squash_flags fl) out hchain res st2 h
          exact ⟨hmono hh.1, hmono hh.2⟩

/-- C4 counterexample: on an `s`-flag invocation whose spawn succeeds and
returns, the two null-device handles opened for the redirections are still
open when the call returns — nothing in `Runner.__call__` closes them —
refuting the claim that they are released once the spawn call returns. -/
theorem C4_s_handles_cex :
    (stOf (runnerCall 1 cfgStd envStd st0 (some (.str "beep")) false "default" [] 0 ['s']
      true kwsEmpty)).map RState.openHandles = some [0, 1] ∧
    (evsOf (runnerCall 1 cfgStd envStd st0 (some (.str "beep")) false "default" [] 0 ['s']
      true kwsEmpty)).any isPopenEv = true := by
  decide

/-- C4 (amended): on every `s`-flag invocation that returns (spawn
succeeding or not), the two null-device handles opened before the spawn
are still among the open handles when the call returns; the operation
never closes them (their release is left to the runtime's garbage
collection). -/
theorem C4_s_handles_amended (n : Nat) (cfg : RunnerCfg) (env : Env) (st : RState)
    (a : PyAction) (taf : Bool) (app : String) (files : List String) (mode : Int)
    (fl : List Char) (w : Bool) (kws : PopenKws) (sh : String)
    (hsh : env.shellVar = some sh) (hfm : cfg.hasFM = true)
    (hsf : 's' ∈ squash_flags fl) :
    ∃ res st2, runnerCall n cfg env st (some a) taf app files mode fl w kws =
        .ok (res, st2) ∧
      st.nextHandle ∈ st2.openHandles ∧ st.nextHandle + 1 ∈ st2.openHandles := by
  obtain ⟨⟨res, st2⟩, hok⟩ :=
    runnerCall_total n cfg env st (some a) taf app files mode fl w kws hsh hfm
  refine ⟨res, st2, hok, ?_⟩
  cases n with
  | zero =>
      rw [runnerCall_zero] at hok
      exact runnerBody_s_handles _ cfg env st a taf app files mode fl w kws
        (fun a2 taf2 app2 files2 mode2 fl2 w2 kws2 stc res2 stc2 hc => by
          simp only [Except.ok.injEq, Prod.mk.injEq] at hc
          rw [← hc.2]
          exact List.Subset.refl _) hsf res st2 hok
  | succ m =>
      rw [runnerCall_succ] at hok
      exact runnerBody_s_handles _ cfg env st a taf app files mode fl w kws
        (fun a2 taf2 app2 files2 mode2 fl2 w2 kws2 stc res2 stc2 hc =>
          runnerCall_handles_mono m cfg env stc a2 taf2 app2 files2 mode2 fl2 w2 kws2
            res2 stc2 hc) hsf res st2 hok

/-- C4 witness: the amended theorem applied to flags "s" on a concrete
action in a benign environment with a fresh runner state. -/
theorem C4_s_handles_amended_witness :
    ∃ res st2, runnerCall 1 cfgStd envStd st0 (some (.str "beep x")) false "default" [] 0
        ['s'] true kwsEmpty = .ok (res, st2) ∧
      st0.nextHandle ∈ st2.openHandles ∧ st0.nextHandle + 1 ∈ st2.openHandles :=
  C4_s_handles_amended 1 cfgStd envStd st0 (.str "beep x") false "default" [] 0 ['s'] true
    kwsEmpty "/bin/sh" (by decide) (by decide) (by decide)

/- ## Claim C5 -/

/-- C5 counterexample: with the `r` flag, the escalation tool absent, and
`SHELL` unset in a shell-mode invocation, the call raises `KeyError`
(from line 170, reached before the sudo check) instead of returning the
`False` sentinel with a logged message, refuting the claim for this
invocation. -/
theorem C5_r_nosudo_cex :
    runnerCall 1 cfgStd { envStd with shellVar := none, executables := [] } st0
      (some (.str "vi x")) false "default" [] 0 ['r'] true kwsEmpty = .error .keyError := by
  decide

/-- C5 (amended): provided the shell-executable lookup succeeds (`SHELL`
set), every invocation whose squashed flags contain `r` while `sudo` is
not among the available executables returns the `False` sentinel, appends
exactly the sudo-missing message to the log sink (when one is attached),
and performs no externally visible step: no signal, no spawn, no UI
action — in particular the action value is never rewritten or used. -/
theorem C5_r_nosudo_amended (n : Nat) (cfg : RunnerCfg) (env : Env) (st : RState)
    (a : PyAction) (taf : Bool) (app : String) (files : List String) (mode : Int)
    (fl : List Char) (w : Bool) (kws : PopenKws) (sh : String)
    (hsh : env.shellVar = some sh)
    (hrt : 'r' ∈ squash_flags fl) (hsu : "sudo" ∉ env.executables) :
    ∃ st2, runnerCall n cfg env st (some a) taf app files mode fl w kws =
        .ok (.retFalse, st2) ∧
      st2.events = st.events ∧
      st2.zombies = st.zombies ∧
      st2.log = st.log ++ (if cfg.hasLogfunc then [sudoMissingMsg] else []) := by
  have key : ∀ chain : ChainFn,
      ∃ st2, runnerBody chain cfg env st (some a) taf app files mode fl w kws =
          .ok (.retFalse, st2) ∧
        st2.events = st.events ∧ st2.zombies = st.zombies ∧
        st2.log = st.log ++ (if cfg.hasLogfunc then [sudoMissingMsg] else []) := by
    intro chain
    refine ⟨_, runnerBody_r_noSudo chain cfg env st a taf app files mode fl w kws hsh hrt hsu,
      ?_, ?_, ?_⟩
    · rw [runnerLog_events, interpState_events]
    · rw [runnerLog_zombies, interpState_zombies]
    · rw [runnerLog_log, interpState_log]
  cases n with
  | zero => rw [runnerCall_zero]; exact key _
  | succ m => rw [runnerCall_succ]; exact key _

/-- C5 witness: the amended theorem applied to flags "r" with an empty
executable set and `SHELL` present. -/
theorem C5_r_nosudo_amended_witness :
    ∃ st2, runnerCall 1 cfgStd { envStd with executables := [] } st0 (some (.str "vi y"))
        false "default" [] 0 ['r'] true kwsEmpty = .ok (.retFalse, st2) ∧
      st2.events = st0.events ∧
      st2.zombies = st0.zombies ∧
      st2.log = st0.log ++ (if cfgStd.hasLogfunc then [sudoMissingMsg] else []) :=
  C5_r_nosudo_amended 1 cfgStd { envStd with executables := [] } st0 (.str "vi y") false
    "default" [] 0 ['r'] true kwsEmpty "/bin/sh" (by decide) (by decide) (by decide)

/- ## Claim C8 -/

/-- C8: whenever output piping is active (squashed flags contain `p`) and
a child process was produced (the blocking spawn path was taken and
succeeded, with the flag preconditions met), `Runner.__call__` returns
exactly the result of recursively invoking itself with the pager command
"less" as the action, `try_app_first = true`, `app = "pager"`, default
files, mode, flags and wait, and the child's stdout bound as the pager's
stdin — the pager invocation's result replaces the original result. -/
theorem C8_pager_chain (n : Nat) (cfg : RunnerCfg) (env : Env) (st : RState)
    (a : PyAction) (taf : Bool) (app : String) (files : List String) (mode : Int)
    (fl : List Char) (w : Bool) (kws : PopenKws) (sh : String)
    (hsh : env.shellVar = some sh) (hfm : cfg.hasFM = true)
    (hp : 'p' ∈ squash_flags fl)
    (hnf : ¬('f' ∈ squash_flags fl ∧ 'r' ∉ squash_flags fl))
    (hpo : env.popenOk = true)
    (hr : 'r' ∈ squash_flags fl → "sudo" ∈ env.executables)
    (ht : 't' ∈ squash_flags fl → env.hasDisplay = true) :
    ∃ pid st7, runnerCall (n + 1) cfg env st (some a) taf app files mode fl w kws =
      runnerCall n cfg env st7 (some (.str "less")) true "pager" [] 0 [] true
        { kwsEmpty with stdin := some (.childStdout pid) } := by
  obtain ⟨pid, st7, hbody⟩ := runnerBody_pipe
    (fun a2 taf2 app2 files2 mode2 fl2 w2 kws2 stc =>
      runnerCall n cfg env stc a2 taf2 app2 files2 mode2 fl2 w2 kws2)
    cfg env st a taf app files mode fl w kws hsh hfm hp hnf hpo hr ht
  refine ⟨pid, st7, ?_⟩
  rw [runnerCall_succ]
  exact hbody

/-- C8 witness: a concrete `p`-flag invocation in a benign environment
chains into the pager invocation. -/
theorem C8_pager_chain_witness :
    ∃ pid st7, runnerCall 1 cfgStd envStd st0 (some (.str "make")) false "default" [] 0
        ['p'] true kwsEmpty =
      runnerCall 0 cfgStd envStd st7 (some (.str "less")) true "pager" [] 0 [] true
        { kwsEmpty with stdin := some (.childStdout pid) } :=
  C8_pager_chain 0 cfgStd envStd st0 (.str "make") false "default" [] 0 ['p'] true kwsEmpty
    "/bin/sh" (by decide) (by decide) (by decide) (by decide) (by decide) (by decide)
    (by decide)

/- ## Claim C10 -/

/-- C10 counterexample: a `t`-flag invocation with no display and `SHELL`
unset in a shell-mode invocation raises `KeyError` instead of returning
the `False` sentinel, so the claimed sentinel discipline does not hold for
every precondition failure. -/
theorem C10_sentinels_cex :
    runnerCall 1 cfgStd { envStd with shellVar := none, hasDisplay := false } st0
      (some (.str "htop")) false "default" [] 0 ['t'] true kwsEmpty = .error .keyError := by
  decide

/-- C10 (amended): provided the shell-executable lookup succeeds and the
fm object is attached, the two failure sentinels are as claimed: every
precondition failure — no action supplied, escalation tool missing for
`r`, no display for `t` — returns `False`, while an OS-level spawn
failure returns `None`, and a successful detached spawn via `f` without
`r` also returns `None`, since the detached primitive's result is never
bound to the process variable. -/
theorem C10_sentinels_amended (n : Nat) (cfg : RunnerCfg) (env : Env) (st : RState)
    (a : PyAction) (taf : Bool) (app : String) (files : List String) (mode : Int)
    (fl : List Char) (w : Bool) (kws : PopenKws) (sh : String)
    (hsh : env.shellVar = some sh) (hfm : cfg.hasFM = true) :
    resOf (runnerCall n cfg env st none taf app files mode fl w kws) = some .retFalse ∧
    ('r' ∈ squash_flags fl → "sudo" ∉ env.executables →
      resOf (runnerCall n cfg env st (some a) taf app files mode fl w kws) =
        some .retFalse) ∧
    ('t' ∈ squash_flags fl → env.hasDisplay = false →
      ('r' ∈ squash_flags fl → "sudo" ∈ env.executables) →
      resOf (runnerCall n cfg env st (some a) taf app files mode fl w kws) =
        some .retFalse) ∧
    (¬('f' ∈ squash_flags fl ∧ 'r' ∉ squash_flags fl) → env.popenOk = false →
      ('r' ∈ squash_flags fl → "sudo" ∈ env.executables) →
      ('t' ∈ squash_flags fl → env.hasDisplay = true) →
      resOf (runnerCall n cfg env st (some a) taf app files mode fl w kws) =
        some .retNone) ∧
    ('f' ∈ squash_flags fl → 'r' ∉ squash_flags fl →
      ('t' ∈ squash_flags fl → env.hasDisplay = true) →
      resOf (runnerCall n cfg env st (some a) taf app files mode fl w kws) =
        some .retNone) := by
  refine ⟨?_, ?_, ?_, ?_, ?_⟩
  · cases n with
    | zero => rw [runnerCall_zero, runnerBody_noAction]; rfl
    | succ m => rw [runnerCall_succ, runnerBody_noAction]; rfl
  · intro hrt hsu
    cases n with
    | zero =>
        rw [runnerCall_zero,
          runnerBody_r_noSudo _ cfg env st a taf app files mode fl w kws hsh hrt hsu]
        rfl
    | succ m =>
        rw [runnerCall_succ,
          runnerBody_r_noSudo _ cfg env st a taf app files mode fl w kws hsh hrt hsu]
        rfl
  · intro htt hd hr
    cases n with
    | zero =>
        rw [runnerCall_zero,
          runnerBody_t_noDisplay _ cfg env st a taf app files mode fl w kws hsh hr htt hd]
        rfl
    | succ m =>
        rw [runnerCall_succ,
          runnerBody_t_noDisplay _ cfg env st a taf app files mode fl w kws hsh hr htt hd]
        rfl
  · intro hnf hpo hr ht
    cases n with
    | zero =>
        rw [runnerCall_zero]
        exact runnerBody_popenFail _ cfg env st a taf app files mode fl w kws hsh hfm
          hnf hpo hr ht
    | succ m =>
        rw [runnerCall_succ]
        exact runnerBody_popenFail _ cfg env st a taf app files mode fl w kws hsh hfm
          hnf hpo hr ht
  · intro hf hrn ht
    cases n with
    | zero =>
        rw [runnerCall_zero]
        obtain ⟨k, hbody⟩ :=
          runnerBody_forked _ cfg env st a taf app files mode fl w kws hsh hfm hf hrn ht
        rw [hbody]
        rfl
    | succ m =>
        rw [runnerCall_succ]
        obtain ⟨k, hbody⟩ :=
          runnerBody_forked _ cfg env st a taf app files mode fl w kws hsh hfm hf hrn ht
        rw [hbody]
        rfl

/-- C10 witness: the amended sentinel discipline instantiated on flags "f"
in a benign environment. -/
theorem C10_sentinels_amended_witness :
    resOf (runnerCall 1 cfgStd envStd st0 none false "default" [] 0 ['f'] true kwsEmpty) =
        some .retFalse ∧
    ('r' ∈ squash_flags ['f'] → "sudo" ∉ envStd.executables →
      resOf (runnerCall 1 cfgStd envStd st0 (some (.str "x")) false "default" [] 0 ['f']
        true kwsEmpty) = some .retFalse) ∧
    ('t' ∈ squash_flags ['f'] → envStd.hasDisplay = false →
      ('r' ∈ squash_flags ['f'] → "sudo" ∈ envStd.executables) →
      resOf (runnerCall 1 cfgStd envStd st0 (some (.str "x")) false "default" [] 0 ['f']
        true kwsEmpty) = some .retFalse) ∧
    (¬('f' ∈ squash_flags ['f'] ∧ 'r' ∉ squash_flags ['f']) → envStd.popenOk = false →
      ('r' ∈ squash_flags ['f'] → "sudo" ∈ envStd.executables) →
      ('t' ∈ squash_flags ['f'] → envStd.hasDisplay = true) →
      resOf (runnerCall 1 cfgStd envStd st0 (some (.str "x")) false "default" [] 0 ['f']
        true kwsEmpty) = some .retNone) ∧
    ('f' ∈ squash_flags ['f'] → 'r' ∉ squash_flags ['f'] →
      ('t' ∈ squash_flags ['f'] → envStd.hasDisplay = true) →
      resOf (runnerCall 1 cfgStd envStd st0 (some (.str "x")) false "default" [] 0 ['f']
        true kwsEmpty) = some .retNone) :=
  C10_sentinels_amended 1 cfgStd envStd st0 (.str "x") false "default" [] 0 ['f'] true
    kwsEmpty "/bin/sh" (by decide) (by decide)

end RangerRunner